import Mathlib

/-!
Verification of the ProjectionRegistry projection pipeline.

The development shallowly embeds the pieces of the Python source that the
properties below are about:

* `projection/gnomonic/config.py` — pydantic-validated configuration
  (construction validator, in-place update);
* `projection/base/grid.py` — direction dispatch of grid generation;
* `projection/base/transform.py` — spherical-to-pixel affine rescaling;
* `projection/processor.py` — the backward orchestration pipeline;
* `projection/gnomonic/strategy.py` and `projection/mercator/strategy.py`
  — the projection math itself (real-valued, further below).

Exact rational arithmetic stands in for Python floats where only field
plumbing, comparisons and affine arithmetic occur; real numbers stand in for
floats in the trigonometric strategy code.  The only non-real float artefact
the strategy code manufactures is the NaN produced by NumPy's `0/0`; the
embedding of the gnomonic forward map therefore returns `Option ℝ` for the
latitude, `none` standing for the NaN that `(y * sin_c * cos φ1) / rho`
produces when `rho == 0` (NumPy evaluates `0.0/0.0` to NaN, it does not
raise).
-/

namespace ProjectionRegistry

/-- The conceptual error kinds of `projection/exceptions.py`: each component
raises its own kind and the processor re-wraps stage failures. -/
inductive ErrKind where
  | configurationError
  | gridGenerationError
  | processingError
  | transformationError
  | interpolationError
  deriving DecidableEq

/-- The numeric fields of `GnomonicConfigModel` (`projection/gnomonic/config.py`),
with the model's declared defaults.  The two OpenCV enum fields
(`interpolation`, `borderMode`, `borderValue`) carry no numeric content the
claims touch and are omitted. -/
structure GnomonicConfigModel where
  R : ℚ := 1
  phi1_deg : ℚ := 0
  lam0_deg : ℚ := 0
  fov_deg : ℚ := 90
  x_points : ℕ := 512
  y_points : ℕ := 512
  lon_points : ℕ := 1024
  lat_points : ℕ := 512
  x_min : ℚ := -1
  x_max : ℚ := 1
  y_min : ℚ := -1
  y_max : ℚ := 1
  lon_min : ℚ := -180
  lon_max : ℚ := 180
  lat_min : ℚ := -90
  lat_max : ℚ := 90
  deriving DecidableEq

/-- The pydantic field validator `validate_fov`: accepts exactly
`0 < fov_deg < 180` (both bounds strict in the source), raises otherwise. -/
def validate_fov (v : ℚ) : Except ErrKind ℚ :=
  if 0 < v ∧ v < 180 then .ok v else .error .configurationError

/-- `GnomonicConfig.__init__`: constructs `GnomonicConfigModel(**kwargs)`;
pydantic runs the `fov_deg` validator (the only declared validator — no other
field, in particular not `R`, is validated) and any validation failure is
re-raised as `ConfigurationError`. -/
def mkGnomonicConfig (c : GnomonicConfigModel) : Except ErrKind GnomonicConfigModel :=
  match validate_fov c.fov_deg with
  | .ok _ => .ok c
  | .error _ => .error .configurationError

/-- `GnomonicConfig.update`: the source calls
`self.config.copy(update=kwargs)`.  pydantic's `BaseModel.copy(update=...)`
sets the given fields on a shallow copy WITHOUT running any validator (its
documented behaviour), so no value can make the call raise; the embedding
updates the `fov_deg` field (the claims' example) and always succeeds. -/
def updateGnomonicConfig (c : GnomonicConfigModel) (newFov : ℚ) :
    Except ErrKind GnomonicConfigModel :=
  .ok { c with fov_deg := newFov }

/-- `BaseGridGeneration.create_grid` (`projection/base/grid.py`): rejects any
direction other than `"forward"`/`"backward"` with a `GridGenerationError`
before the subclass hook `_create_grid` runs; a failure inside the hook is
also re-raised as `GridGenerationError`.  The method writes no attribute, so
the generator state `st` (of any type `σ`) passes through unchanged and is
returned alongside to make that observable. -/
def create_grid {σ α : Type} (sub : String → Except ErrKind α) (st : σ)
    (direction : String) : Except ErrKind α × σ :=
  if direction = "forward" ∨ direction = "backward" then
    (match sub direction with
      | .ok g => .ok g
      | .error _ => .error .gridGenerationError, st)
  else
    (.error .gridGenerationError, st)

/-- Single-channel integer image, stand-in for the H×W numeric arrays. -/
abbrev Img := List (List ℤ)

/-- Fractional pixel-coordinate array (one component of a CoordinateMap). -/
abbrev QMap := List (List ℚ)

/-- Boolean validity-mask array. -/
abbrev BMask := List (List Bool)

/-- Row-length profile of a 2-D array: its shape for the mask/image shape
comparison `mask.shape != back_projected_img.shape[:2]`. -/
def shape2 {α : Type} (m : List (List α)) : List ℕ := m.map List.length

/-- `cv2.flip(img, 0)`: vertical flip, i.e. row reversal. -/
def flip_vertical (img : Img) : Img := img.reverse

/-- `back_projected_img *= mask[:, :, None]`: element-wise multiplication of
the image by the 0/1 mask. -/
def apply_mask_mul (img : Img) (mk : BMask) : Img :=
  List.zipWith (fun row mrow =>
    List.zipWith (fun p b => p * (if b then 1 else 0)) row mrow) img mk

/-- `ProjectionProcessor.backward` (`projection/processor.py`), with the four
stage collaborators passed in as the processor holds them: generate the
backward grid `(lon_grid, lat_grid)`; run the strategy's
`backward(lat_grid, lon_grid)` giving `(x, y, mask)`; convert `(x, y)` to
pixel coordinates; interpolate — the mask is handed to the interpolator only
when the caller supplied `return_mask=True`, otherwise `None` is passed; if
`return_mask` the mask is multiplied into the result (shape-checked, a
mismatch raising through the final handler as `ProcessingError`); the image
returned is the vertical flip of what the previous stage produced. -/
def processor_backward (create_backward_grid : Except ErrKind (QMap × QMap))
    (strategy_backward : QMap → QMap → QMap × QMap × BMask)
    (xy_to_image : QMap → QMap → QMap × QMap)
    (interpolate : Img → QMap → QMap → Option BMask → Img)
    (return_mask : Bool) (rect_img : Img) : Except ErrKind Img :=
  match create_backward_grid with
  | .error _ => .error .gridGenerationError
  | .ok (lon_grid, lat_grid) =>
    let bwd := strategy_backward lat_grid lon_grid
    let pix := xy_to_image bwd.1 bwd.2.1
    let msk := bwd.2.2
    let bimg := interpolate rect_img pix.1 pix.2
      (if return_mask then some msk else none)
    if return_mask then
      if shape2 msk = shape2 bimg then
        .ok (flip_vertical (apply_mask_mul bimg msk))
      else
        .error .processingError
    else
      .ok (flip_vertical bimg)

/-- `CoordinateTransformer.latlon_to_image_coords`
(`projection/base/transform.py`): the affine rescaling
`map_x = (lon − lon_min)/(lon_max − lon_min)·(W−1)`,
`map_y = (lat_max − lat)/(lat_max − lat_min)·(H−1)`, applied directly to the
given latitude/longitude values. -/
def latlon_to_image_coords (cfg : GnomonicConfigModel) (H W : ℕ)
    (lat lon : ℚ) : ℚ × ℚ :=
  ((lon - cfg.lon_min) / (cfg.lon_max - cfg.lon_min) * ((W : ℚ) - 1),
   (cfg.lat_max - lat) / (cfg.lat_max - cfg.lat_min) * ((H : ℚ) - 1))

/-- Modelled from the spec (for comparison with the source transformer): the
documented folding policy `v_folded = bound − (v − bound)` for a value that
exceeds its upper bound. -/
def spec_fold_high (v bound : ℚ) : ℚ :=
  if bound < v then bound - (v - bound) else v

/-- Modelled from the spec (for comparison with the source transformer): fold
out-of-domain longitude/latitude back into range by reflection at the bound,
then apply the affine rescaling. -/
def spec_latlon_to_image_coords (cfg : GnomonicConfigModel) (H W : ℕ)
    (lat lon : ℚ) : ℚ × ℚ :=
  latlon_to_image_coords cfg H W
    (spec_fold_high lat cfg.lat_max) (spec_fold_high lon cfg.lon_max)

/-- Concrete interpolator used to separate the two possible mask arguments:
it reports (as a 1×1 image) whether a mask was handed to it. -/
def probe_interpolate : Img → QMap → QMap → Option BMask → Img :=
  fun _ _ _ m => match m with | some _ => [[1]] | none => [[0]]

/-- C5: the claim states that construction accepts exactly
`0 < fov_deg ≤ 180` with `R > 0` and rejects `R ≤ 0`.  The source validates
only `fov_deg`, and strictly: construction succeeds iff `0 < fov_deg < 180`,
whatever the value of `R` (so `fov_deg = 180` is rejected and `R ≤ 0` is
accepted). -/
theorem gnomonic_config_fov_validation (c : GnomonicConfigModel) :
    (mkGnomonicConfig c = .ok c ↔ (0 < c.fov_deg ∧ c.fov_deg < 180)) ∧
    (mkGnomonicConfig c = .error .configurationError ↔
      ¬(0 < c.fov_deg ∧ c.fov_deg < 180)) := by
  unfold mkGnomonicConfig validate_fov
  by_cases h : 0 < c.fov_deg ∧ c.fov_deg < 180 <;> simp [h]

/-- C5 counterexample: `fov_deg = 180` and `R = 1` satisfy the claim's
acceptance condition (`0 < fov ≤ 180`, `R > 0`), yet construction raises a
configuration error. -/
theorem gnomonic_config_fov180_rejected :
    (0 : ℚ) < 180 ∧ (180 : ℚ) ≤ 180 ∧ (0 : ℚ) < 1 ∧
    mkGnomonicConfig { fov_deg := 180 } = .error .configurationError := by
  refine ⟨by norm_num, by norm_num, by norm_num, ?_⟩
  rfl

/-- C6: updating `fov_deg` to `200` — outside the validated range, as
`validate_fov` itself confirms — raises nothing: `update` goes through
pydantic's `copy(update=...)`, which skips validation, so the invalid value
is silently stored. -/
theorem gnomonic_config_update_no_validation :
    updateGnomonicConfig {} 200 = .ok { fov_deg := 200 } ∧
    validate_fov 200 = .error .configurationError := by
  refine ⟨rfl, ?_⟩
  rfl

/-- C9: `create_grid` with any direction other than `"forward"` and
`"backward"` returns a `GridGenerationError` without invoking the subclass
hook, and the generator state comes back unchanged (the method performs no
write). -/
theorem create_grid_invalid_direction {σ α : Type}
    (sub : String → Except ErrKind α) (st : σ) (d : String)
    (h1 : d ≠ "forward") (h2 : d ≠ "backward") :
    create_grid sub st d = (.error .gridGenerationError, st) := by
  unfold create_grid
  simp [h1, h2]

/-- C9 witness: the spec's concrete scenario, direction `"sideways"`. -/
theorem create_grid_sideways_case :
    ("sideways" ≠ "forward") ∧ ("sideways" ≠ "backward") ∧
    create_grid (fun _ => .ok (42 : ℤ)) (0 : ℤ) ("sideways") =
      (.error .gridGenerationError, 0) :=
  ⟨by decide, by decide,
    create_grid_invalid_direction _ _ _ (by decide) (by decide)⟩

/-- C8 (amended): in `processor_backward` the interpolator receives the
strategy's validity mask only when the caller passed `return_mask=True`
(otherwise it receives `None`); the returned image is the vertical flip of
the interpolated image, with the mask multiplied in before the flip in the
`return_mask=True` case. -/
theorem processor_backward_mask_flow (grids : QMap × QMap)
    (sb : QMap → QMap → QMap × QMap × BMask)
    (xy : QMap → QMap → QMap × QMap)
    (interp : Img → QMap → QMap → Option BMask → Img) (rimg : Img) :
    (processor_backward (.ok grids) sb xy interp false rimg =
      .ok (flip_vertical (interp rimg
        (xy (sb grids.2 grids.1).1 (sb grids.2 grids.1).2.1).1
        (xy (sb grids.2 grids.1).1 (sb grids.2 grids.1).2.1).2 none))) ∧
    (shape2 (sb grids.2 grids.1).2.2 =
        shape2 (interp rimg
          (xy (sb grids.2 grids.1).1 (sb grids.2 grids.1).2.1).1
          (xy (sb grids.2 grids.1).1 (sb grids.2 grids.1).2.1).2
          (some (sb grids.2 grids.1).2.2)) →
      processor_backward (.ok grids) sb xy interp true rimg =
        .ok (flip_vertical (apply_mask_mul
          (interp rimg
            (xy (sb grids.2 grids.1).1 (sb grids.2 grids.1).2.1).1
            (xy (sb grids.2 grids.1).1 (sb grids.2 grids.1).2.1).2
            (some (sb grids.2 grids.1).2.2))
          (sb grids.2 grids.1).2.2))) := by
  obtain ⟨gl, gr⟩ := grids
  constructor
  · simp [processor_backward]
  · intro h
    simp [processor_backward, h]

/-- C8 counterexample: a backward call without `return_mask` hands the
interpolator no mask at all — with `probe_interpolate`, which answers `[[1]]`
when given a mask and `[[0]]` when given none, the pipeline returns `[[0]]`,
not the `[[1]]` the claim's unconditional mask-passing would give. -/
theorem processor_backward_default_drops_mask :
    processor_backward (.ok ([[0]], [[0]]))
        (fun _ _ => ([[0]], [[0]], [[true]])) (fun a b => (a, b))
        probe_interpolate false [[5]] = .ok [[0]] ∧
    flip_vertical (probe_interpolate [[5]] [[0]] [[0]] (some [[true]])) =
      [[1]] ∧
    ([[0]] : Img) ≠ [[1]] := by
  refine ⟨rfl, rfl, by decide⟩

/-- C4 (amended): the transformer performs no folding: the affine rescaling
is applied directly to the given values, and a longitude beyond `lon_max`
lands beyond the last pixel column `W − 1` instead of being reflected back
into range. -/
theorem latlon_rescale_no_fold (cfg : GnomonicConfigModel) (H W : ℕ)
    (lat lon : ℚ) :
    (latlon_to_image_coords cfg H W lat lon =
      ((lon - cfg.lon_min) / (cfg.lon_max - cfg.lon_min) * ((W : ℚ) - 1),
       (cfg.lat_max - lat) / (cfg.lat_max - cfg.lat_min) * ((H : ℚ) - 1))) ∧
    (cfg.lon_max < lon → cfg.lon_min < cfg.lon_max → 2 ≤ W →
      ((W : ℚ) - 1) < (latlon_to_image_coords cfg H W lat lon).1) := by
  constructor
  · rfl
  · intro hlon hord hW
    have hd : (0 : ℚ) < cfg.lon_max - cfg.lon_min := by linarith
    have hratio : 1 < (lon - cfg.lon_min) / (cfg.lon_max - cfg.lon_min) :=
      (one_lt_div hd).2 (by linarith)
    have hW1 : (0 : ℚ) < (W : ℚ) - 1 := by
      have : (2 : ℚ) ≤ (W : ℚ) := by exact_mod_cast hW
      linarith
    have := mul_lt_mul_of_pos_right hratio hW1
    simpa [latlon_to_image_coords] using this

/-- C4 counterexample: with the default bounds, a 181×361 target and
`lon = 200` (which exceeds `lon_max = 180`), the source transformer yields
`map_x = 380` — the unfolded affine image — while folding by reflection at
the bound first (as the claim states) would yield `340`. -/
theorem latlon_fold_differs :
    latlon_to_image_coords {} 181 361 0 200 ≠
      spec_latlon_to_image_coords {} 181 361 0 200 ∧
    (latlon_to_image_coords {} 181 361 0 200).1 = 380 ∧
    (spec_latlon_to_image_coords {} 181 361 0 200).1 = 340 := by
  refine ⟨?_, by norm_num [latlon_to_image_coords], ?_⟩
  · intro h
    have h1 := congrArg Prod.fst h
    norm_num [latlon_to_image_coords, spec_latlon_to_image_coords,
      spec_fold_high] at h1
  · norm_num [latlon_to_image_coords, spec_latlon_to_image_coords,
      spec_fold_high]

/-! Real-valued strategy embeddings. -/

/-- The three configuration fields the gnomonic strategy reads. -/
structure GnomonicCfgR where
  R : ℝ
  phi1_deg : ℝ
  lam0_deg : ℝ

/-- `np.deg2rad`: degrees to radians. -/
noncomputable def deg2rad (d : ℝ) : ℝ := d * (Real.pi / 180)

/-- `np.rad2deg`: radians to degrees. -/
noncomputable def rad2deg (r : ℝ) : ℝ := r * (180 / Real.pi)

/-- `np.arctan2 y x` on real (finite) inputs. -/
noncomputable def arctan2 (y x : ℝ) : ℝ :=
  if 0 < x then Real.arctan (y / x)
  else if x < 0 then
    (if 0 ≤ y then Real.arctan (y / x) + Real.pi
     else Real.arctan (y / x) - Real.pi)
  else if 0 < y then Real.pi / 2
  else if y < 0 then -(Real.pi / 2)
  else 0

/-- `GnomonicProjectionStrategy.forward`
(`projection/gnomonic/strategy.py`): `rho = sqrt(x²+y²)`,
`c = arctan2(rho, R)`,
`phi = arcsin(cos c · sin φ1 − (y · sin c · cos φ1)/rho)`,
`lam = λ0 + arctan2(x · sin c, rho · cos φ1 · cos c + y · sin φ1 · sin c)`,
both converted back to degrees.  There is no special case for `rho == 0`:
there NumPy evaluates `(y·sin c·cos φ1)/rho` as `0.0/0.0 = NaN`, which
propagates through `arcsin` into the latitude, so the latitude is embedded as
`Option ℝ` with `none` at `rho = 0`.  (The longitude's `arctan2(0, 0)`
evaluates to `0` in NumPy and stays real.) -/
noncomputable def gnomonic_forward (cfg : GnomonicCfgR) (x y : ℝ) :
    Option ℝ × ℝ :=
  let phi1 := deg2rad cfg.phi1_deg
  let lam0 := deg2rad cfg.lam0_deg
  let rho := Real.sqrt (x ^ 2 + y ^ 2)
  let c := arctan2 rho cfg.R
  let lat := if rho = 0 then none else
    some (rad2deg (Real.arcsin
      (Real.cos c * Real.sin phi1 - y * Real.sin c * Real.cos phi1 / rho)))
  let lon := rad2deg (lam0 + arctan2 (x * Real.sin c)
    (rho * Real.cos phi1 * Real.cos c + y * Real.sin phi1 * Real.sin c))
  (lat, lon)

/-- The gnomonic backward transform's cosine of the angular distance between
`(lat, lon)` and the projection centre `(φ1, λ0)`:
`cos_c = sin φ1 sin φ + cos φ1 cos φ cos(λ − λ0)` as computed in
`GnomonicProjectionStrategy.backward` before the zero guard. -/
noncomputable def gnom_cos_c (cfg : GnomonicCfgR) (lat lon : ℝ) : ℝ :=
  let phi1 := deg2rad cfg.phi1_deg
  let lam0 := deg2rad cfg.lam0_deg
  let phi := deg2rad lat
  let lam := deg2rad lon
  Real.sin phi1 * Real.sin phi +
    Real.cos phi1 * Real.cos phi * Real.cos (lam - lam0)

/-- `cos_c = np.where(cos_c == 0, 1e-10, cos_c)`: the zero denominator is
replaced by `1e-10` before the division and before the validity test. -/
noncomputable def gnom_cos_c_safe (cfg : GnomonicCfgR) (lat lon : ℝ) : ℝ :=
  if gnom_cos_c cfg lat lon = 0 then 1e-10 else gnom_cos_c cfg lat lon

/-- `GnomonicProjectionStrategy.backward`: degrees in,
`x = R cos φ sin(λ−λ0)/cos_c`,
`y = R (cos φ1 sin φ − sin φ1 cos φ cos(λ−λ0))/cos_c`, and the validity mask
`cos_c > 0` — all three using the guarded `cos_c`. -/
noncomputable def gnomonic_backward (cfg : GnomonicCfgR) (lat lon : ℝ) :
    ℝ × ℝ × Prop :=
  let phi1 := deg2rad cfg.phi1_deg
  let lam0 := deg2rad cfg.lam0_deg
  let phi := deg2rad lat
  let lam := deg2rad lon
  let cosc := gnom_cos_c_safe cfg lat lon
  (cfg.R * Real.cos phi * Real.sin (lam - lam0) / cosc,
   cfg.R * (Real.cos phi1 * Real.sin phi -
     Real.sin phi1 * Real.cos phi * Real.cos (lam - lam0)) / cosc,
   0 < cosc)

/-- The strategy-level round trip `backward(forward(x, y))` of the gnomonic
projection, defined when the forward latitude is a real number (not NaN). -/
noncomputable def gnomonic_roundtrip (cfg : GnomonicCfgR) (x y : ℝ) :
    Option (ℝ × ℝ) :=
  match gnomonic_forward cfg x y with
  | (none, _) => none
  | (some lat, lon) =>
    some ((gnomonic_backward cfg lat lon).1,
      (gnomonic_backward cfg lat lon).2.1)

/-- `MercatorProjectionStrategy.backward`
(`projection/mercator/strategy.py`): converts the incoming degree values to
radians and returns `x = 1 · lon_rad`, `y = 1 · ln(tan(π/4 + lat_rad/2))`
and an all-True mask (`np.ones_like(x) == 1`).  The configured sphere radius
`R` (required of the config at strategy construction) is never read: the
formula hardcodes the factor `1`. -/
noncomputable def mercator_backward (R lon lat : ℝ) : ℝ × ℝ × Bool :=
  let lon_rad := deg2rad lon
  let lat_rad := deg2rad lat
  (1 * lon_rad, 1 * Real.log (Real.tan (Real.pi / 4 + lat_rad / 2)), true)

/-- C1: at the planar centre `(0, 0)` with `R = 1`, `φ1 = 0°`, `λ0 = 0°`,
the gnomonic forward transform does NOT return `(lat, lon) = (0, 0)`: there
is no `rho == 0` special case in the source, the latitude arises from the
division `0.0/0.0` and is NaN (embedded `none`); only the longitude is `0`. -/
theorem gnomonic_forward_center_nan :
    (gnomonic_forward ⟨1, 0, 0⟩ 0 0).1 = none ∧
    (gnomonic_forward ⟨1, 0, 0⟩ 0 0).2 = 0 := by
  have hrho : Real.sqrt ((0 : ℝ) ^ 2 + (0 : ℝ) ^ 2) = 0 := by
    norm_num
  constructor
  · simp [gnomonic_forward, hrho]
  · simp [gnomonic_forward, hrho, deg2rad, rad2deg, arctan2]

/-- C3: the validity mask of the gnomonic backward transform is `False` at
every point whose angular distance from the projection centre exceeds 90°
(`cos_c < 0`) and `True` at every point whose angular distance is below 90°
(`cos_c > 0`). -/
theorem gnomonic_validity_sign (cfg : GnomonicCfgR) (lat lon : ℝ) :
    (gnom_cos_c cfg lat lon < 0 → ¬ (gnomonic_backward cfg lat lon).2.2) ∧
    (0 < gnom_cos_c cfg lat lon → (gnomonic_backward cfg lat lon).2.2) := by
  constructor
  · intro hneg
    have hsafe : gnom_cos_c_safe cfg lat lon = gnom_cos_c cfg lat lon := by
      unfold gnom_cos_c_safe
      rw [if_neg (ne_of_lt hneg)]
    show ¬ (0 < gnom_cos_c_safe cfg lat lon)
    rw [hsafe]
    exact not_lt.2 (le_of_lt hneg)
  · intro hpos
    have hsafe : gnom_cos_c_safe cfg lat lon = gnom_cos_c cfg lat lon := by
      unfold gnom_cos_c_safe
      rw [if_neg (ne_of_gt hpos)]
    show 0 < gnom_cos_c_safe cfg lat lon
    rw [hsafe]
    exact hpos

/-- C7: the Mercator backward transform ignores the configured radius: with
`R = 2` and input `(lon, lat) = (90°, 0°)` it returns `x = π/2` (the `R = 1`
value, since the source multiplies by the literal `1`, not by `R`) together
with `y = 0` and an all-True mask, whereas `x = R·lon_rad` would be `π`. -/
theorem mercator_backward_ignores_R :
    (mercator_backward 2 90 0).1 = Real.pi / 2 ∧
    (mercator_backward 2 90 0).2.1 = 0 ∧
    (mercator_backward 2 90 0).2.2 = true ∧
    (mercator_backward 2 90 0).1 ≠ 2 * deg2rad 90 := by
  have h90 : deg2rad 90 = Real.pi / 2 := by
    unfold deg2rad
    ring
  have hx : (mercator_backward 2 90 0).1 = Real.pi / 2 := by
    simp [mercator_backward, h90]
  refine ⟨hx, ?_, rfl, ?_⟩
  · have h0 : deg2rad 0 = 0 := by
      unfold deg2rad
      ring
    simp [mercator_backward, h0, Real.tan_pi_div_four]
  · rw [hx, h90]
    intro h
    have hpi : Real.pi = 0 := by linarith
    exact Real.pi_ne_zero hpi

/-- Bound used for the horizon outputs: `|cos a · sin b − sin a · cos b · t|`
stays within `1` whenever `|t| ≤ 1` (Cauchy–Schwarz between the unit vectors
`(cos a, sin a)` and `(sin b, cos b · t)`). -/
theorem sin_cos_mix_abs_le_one (a b t : ℝ) (ht : |t| ≤ 1) :
    |Real.cos a * Real.sin b - Real.sin a * Real.cos b * t| ≤ 1 := by
  have ht2 : t ^ 2 ≤ 1 := by
    have := sq_abs t
    nlinarith [abs_nonneg t]
  have h1 : (Real.cos a * Real.sin b + Real.sin a * Real.cos b) ^ 2 ≤ 1 := by
    have hadd : Real.cos a * Real.sin b + Real.sin a * Real.cos b =
        Real.sin (a + b) := by
      rw [Real.sin_add]
      ring
    rw [hadd]
    exact Real.sin_sq_le_one (a + b)
  have h2 : (Real.cos a * Real.sin b - Real.sin a * Real.cos b) ^ 2 ≤ 1 := by
    have hsub : Real.cos a * Real.sin b - Real.sin a * Real.cos b =
        Real.sin (b - a) := by
      rw [Real.sin_sub]
      ring
    rw [hsub]
    exact Real.sin_sq_le_one (b - a)
  rw [abs_le]
  constructor <;>
    nlinarith [mul_nonneg (by linarith [abs_le.1 ht] : (0 : ℝ) ≤ 1 - t)
        (by linarith [h1] :
          (0 : ℝ) ≤ 1 - (Real.cos a * Real.sin b + Real.sin a * Real.cos b) ^ 2),
      mul_nonneg (by linarith [abs_le.1 ht] : (0 : ℝ) ≤ 1 + t)
        (by linarith [h2] :
          (0 : ℝ) ≤ 1 - (Real.cos a * Real.sin b - Real.sin a * Real.cos b) ^ 2),
      mul_nonneg (sq_nonneg (Real.sin a * Real.cos b))
        (by linarith : (0 : ℝ) ≤ 1 - t ^ 2)]

/-- C10: at a point exactly 90° from the projection centre (`cos_c = 0`) the
gnomonic backward transform replaces the zero denominator by `1e-10`, so the
point is marked VALID (`mask = True`) and the outputs are the finite values
`numerator · 1e10`, of magnitude at most `1e10 · R`. -/
theorem gnomonic_backward_horizon (cfg : GnomonicCfgR) (lat lon : ℝ)
    (h : gnom_cos_c cfg lat lon = 0) (hR : 0 ≤ cfg.R) :
    (gnomonic_backward cfg lat lon).2.2 ∧
    (gnomonic_backward cfg lat lon).1 =
      cfg.R * Real.cos (deg2rad lat) *
        Real.sin (deg2rad lon - deg2rad cfg.lam0_deg) * 1e10 ∧
    |(gnomonic_backward cfg lat lon).1| ≤ cfg.R * 1e10 ∧
    (gnomonic_backward cfg lat lon).2.1 =
      cfg.R * (Real.cos (deg2rad cfg.phi1_deg) * Real.sin (deg2rad lat) -
        Real.sin (deg2rad cfg.phi1_deg) * Real.cos (deg2rad lat) *
        Real.cos (deg2rad lon - deg2rad cfg.lam0_deg)) * 1e10 ∧
    |(gnomonic_backward cfg lat lon).2.1| ≤ cfg.R * 1e10 := by
  have hsafe : gnom_cos_c_safe cfg lat lon = 1e-10 := by
    unfold gnom_cos_c_safe
    rw [if_pos h]
  have hinv : ((1e-10 : ℝ))⁻¹ = 1e10 := by norm_num
  have hmask : (gnomonic_backward cfg lat lon).2.2 := by
    show 0 < gnom_cos_c_safe cfg lat lon
    rw [hsafe]
    norm_num
  have hx : (gnomonic_backward cfg lat lon).1 =
      cfg.R * Real.cos (deg2rad lat) *
        Real.sin (deg2rad lon - deg2rad cfg.lam0_deg) * 1e10 := by
    show cfg.R * Real.cos (deg2rad lat) *
        Real.sin (deg2rad lon - deg2rad cfg.lam0_deg) /
        gnom_cos_c_safe cfg lat lon = _
    rw [hsafe, div_eq_mul_inv, hinv]
  have hy : (gnomonic_backward cfg lat lon).2.1 =
      cfg.R * (Real.cos (deg2rad cfg.phi1_deg) * Real.sin (deg2rad lat) -
        Real.sin (deg2rad cfg.phi1_deg) * Real.cos (deg2rad lat) *
        Real.cos (deg2rad lon - deg2rad cfg.lam0_deg)) * 1e10 := by
    show cfg.R * (Real.cos (deg2rad cfg.phi1_deg) * Real.sin (deg2rad lat) -
        Real.sin (deg2rad cfg.phi1_deg) * Real.cos (deg2rad lat) *
        Real.cos (deg2rad lon - deg2rad cfg.lam0_deg)) /
        gnom_cos_c_safe cfg lat lon = _
    rw [hsafe, div_eq_mul_inv, hinv]
  refine ⟨hmask, hx, ?_, hy, ?_⟩
  · rw [hx]
    have hb : |Real.cos (deg2rad lat) *
        Real.sin (deg2rad lon - deg2rad cfg.lam0_deg)| ≤ 1 := by
      rw [abs_mul]
      exact mul_le_one₀ (Real.abs_cos_le_one _) (abs_nonneg _)
        (Real.abs_sin_le_one _)
    have : |cfg.R * Real.cos (deg2rad lat) *
        Real.sin (deg2rad lon - deg2rad cfg.lam0_deg) * 1e10| =
        |cfg.R| * |Real.cos (deg2rad lat) *
          Real.sin (deg2rad lon - deg2rad cfg.lam0_deg)| * 1e10 := by
      rw [mul_assoc cfg.R, abs_mul, abs_mul]
      norm_num
    rw [this, abs_of_nonneg hR]
    nlinarith [abs_nonneg (Real.cos (deg2rad lat) *
      Real.sin (deg2rad lon - deg2rad cfg.lam0_deg))]
  · rw [hy]
    have hb : |Real.cos (deg2rad cfg.phi1_deg) * Real.sin (deg2rad lat) -
        Real.sin (deg2rad cfg.phi1_deg) * Real.cos (deg2rad lat) *
        Real.cos (deg2rad lon - deg2rad cfg.lam0_deg)| ≤ 1 :=
      sin_cos_mix_abs_le_one _ _ _ (Real.abs_cos_le_one _)
    have : |cfg.R * (Real.cos (deg2rad cfg.phi1_deg) * Real.sin (deg2rad lat) -
        Real.sin (deg2rad cfg.phi1_deg) * Real.cos (deg2rad lat) *
        Real.cos (deg2rad lon - deg2rad cfg.lam0_deg)) * 1e10| =
        |cfg.R| * |Real.cos (deg2rad cfg.phi1_deg) * Real.sin (deg2rad lat) -
          Real.sin (deg2rad cfg.phi1_deg) * Real.cos (deg2rad lat) *
          Real.cos (deg2rad lon - deg2rad cfg.lam0_deg)| * 1e10 := by
      rw [abs_mul, abs_mul]
      norm_num
    rw [this, abs_of_nonneg hR]
    nlinarith [abs_nonneg (Real.cos (deg2rad cfg.phi1_deg) *
      Real.sin (deg2rad lat) - Real.sin (deg2rad cfg.phi1_deg) *
      Real.cos (deg2rad lat) *
      Real.cos (deg2rad lon - deg2rad cfg.lam0_deg))]

/-- C10 witness: centre `(φ1, λ0) = (0°, 0°)`, `R = 1`, point
`(lat, lon) = (0°, 90°)` lies exactly 90° from the centre. -/
theorem gnomonic_backward_horizon_case :
    gnom_cos_c ⟨1, 0, 0⟩ 0 90 = 0 ∧
    (gnomonic_backward ⟨1, 0, 0⟩ 0 90).2.2 ∧
    |(gnomonic_backward ⟨1, 0, 0⟩ 0 90).1| ≤ 1 * 1e10 := by
  have h90 : deg2rad 90 = Real.pi / 2 := by
    unfold deg2rad
    ring
  have h0d : deg2rad 0 = 0 := by
    unfold deg2rad
    ring
  have h0 : gnom_cos_c ⟨1, 0, 0⟩ 0 90 = 0 := by
    simp [gnom_cos_c, h90, h0d, Real.cos_pi_div_two]
  exact ⟨h0, (gnomonic_backward_horizon ⟨1, 0, 0⟩ 0 90 h0 (by norm_num)).1,
    (gnomonic_backward_horizon ⟨1, 0, 0⟩ 0 90 h0 (by norm_num)).2.2.1⟩

/-- Radian/degree conversions cancel. -/
theorem deg2rad_rad2deg (r : ℝ) : deg2rad (rad2deg r) = r := by
  unfold deg2rad rad2deg
  field_simp

theorem gnomonic_forward_centered (R x y : ℝ) (hR : 0 < R)
    (hxy : x ^ 2 + y ^ 2 ≠ 0) :
    gnomonic_forward ⟨R, 0, 0⟩ x y =
      (some (rad2deg (Real.arcsin
        (-(y / Real.sqrt (R ^ 2 + (x ^ 2 + y ^ 2)))))),
       rad2deg (Real.arctan (x / R))) := by
  have hN : 0 < x ^ 2 + y ^ 2 := lt_of_le_of_ne (by positivity) (Ne.symm hxy)
  have hrho_pos : 0 < Real.sqrt (x ^ 2 + y ^ 2) := Real.sqrt_pos.2 hN
  have hrho2 : Real.sqrt (x ^ 2 + y ^ 2) ^ 2 = x ^ 2 + y ^ 2 :=
    Real.sq_sqrt hN.le
  have hs_pos : 0 < Real.sqrt (R ^ 2 + (x ^ 2 + y ^ 2)) :=
    Real.sqrt_pos.2 (by positivity)
  have hs2 : Real.sqrt (R ^ 2 + (x ^ 2 + y ^ 2)) ^ 2 = R ^ 2 + (x ^ 2 + y ^ 2) :=
    Real.sq_sqrt (by positivity)
  have hc_eq : arctan2 (Real.sqrt (x ^ 2 + y ^ 2)) R =
      Real.arctan (Real.sqrt (x ^ 2 + y ^ 2) / R) := by
    unfold arctan2
    rw [if_pos hR]
  have hsq1 : Real.sqrt (1 + (Real.sqrt (x ^ 2 + y ^ 2) / R) ^ 2) =
      Real.sqrt (R ^ 2 + (x ^ 2 + y ^ 2)) / R := by
    have h1 : 1 + (Real.sqrt (x ^ 2 + y ^ 2) / R) ^ 2 =
        (Real.sqrt (R ^ 2 + (x ^ 2 + y ^ 2)) / R) ^ 2 := by
      rw [div_pow, div_pow, hrho2, hs2]
      field_simp
    rw [h1, Real.sqrt_sq (div_nonneg hs_pos.le hR.le)]
  have hsin_c : Real.sin (Real.arctan (Real.sqrt (x ^ 2 + y ^ 2) / R)) =
      Real.sqrt (x ^ 2 + y ^ 2) / Real.sqrt (R ^ 2 + (x ^ 2 + y ^ 2)) := by
    rw [Real.sin_arctan, hsq1]
    rw [div_div_div_eq]
    rw [mul_comm (Real.sqrt (x ^ 2 + y ^ 2)) R,
      mul_div_mul_left _ _ (ne_of_gt hR)]
  have hcos_c : Real.cos (Real.arctan (Real.sqrt (x ^ 2 + y ^ 2) / R)) =
      R / Real.sqrt (R ^ 2 + (x ^ 2 + y ^ 2)) := by
    rw [Real.cos_arctan, hsq1, one_div_div]
  have hdeg0 : deg2rad (0 : ℝ) = 0 := by
    unfold deg2rad
    ring
  unfold gnomonic_forward
  simp only [hdeg0, Real.sin_zero, Real.cos_zero, hc_eq, hsin_c, hcos_c]
  rw [if_neg (ne_of_gt hrho_pos)]
  have harg : R / Real.sqrt (R ^ 2 + (x ^ 2 + y ^ 2)) * 0 -
      y * (Real.sqrt (x ^ 2 + y ^ 2) / Real.sqrt (R ^ 2 + (x ^ 2 + y ^ 2))) *
        1 / Real.sqrt (x ^ 2 + y ^ 2) =
      -(y / Real.sqrt (R ^ 2 + (x ^ 2 + y ^ 2))) := by
    rw [mul_zero, zero_sub, mul_one]
    rw [neg_eq_iff_eq_neg, neg_neg]
    field_simp
    ring
  have hpos_eq : Real.sqrt (x ^ 2 + y ^ 2) * 1 *
        (R / Real.sqrt (R ^ 2 + (x ^ 2 + y ^ 2))) +
      y * 0 * (Real.sqrt (x ^ 2 + y ^ 2) / Real.sqrt (R ^ 2 + (x ^ 2 + y ^ 2))) =
      Real.sqrt (x ^ 2 + y ^ 2) * (R / Real.sqrt (R ^ 2 + (x ^ 2 + y ^ 2))) := by
    ring
  have hpos2 : 0 < Real.sqrt (x ^ 2 + y ^ 2) * 1 *
        (R / Real.sqrt (R ^ 2 + (x ^ 2 + y ^ 2))) +
      y * 0 * (Real.sqrt (x ^ 2 + y ^ 2) / Real.sqrt (R ^ 2 + (x ^ 2 + y ^ 2))) := by
    rw [hpos_eq]
    exact mul_pos hrho_pos (div_pos hR hs_pos)
  have hlon : arctan2
      (x * (Real.sqrt (x ^ 2 + y ^ 2) / Real.sqrt (R ^ 2 + (x ^ 2 + y ^ 2))))
      (Real.sqrt (x ^ 2 + y ^ 2) * 1 *
        (R / Real.sqrt (R ^ 2 + (x ^ 2 + y ^ 2))) +
        y * 0 * (Real.sqrt (x ^ 2 + y ^ 2) / Real.sqrt (R ^ 2 + (x ^ 2 + y ^ 2)))) =
      Real.arctan (x / R) := by
    unfold arctan2
    rw [if_pos hpos2, hpos_eq]
    congr 1
    rw [div_eq_div_iff (by positivity) (ne_of_gt hR)]
    field_simp
    ring
  rw [harg, hlon, zero_add]

theorem gnomonic_backward_centered (R x y : ℝ) (hR : 0 < R) :
    (gnomonic_backward ⟨R, 0, 0⟩
        (rad2deg (Real.arcsin (-(y / Real.sqrt (R ^ 2 + (x ^ 2 + y ^ 2))))))
        (rad2deg (Real.arctan (x / R)))).1 = x ∧
    (gnomonic_backward ⟨R, 0, 0⟩
        (rad2deg (Real.arcsin (-(y / Real.sqrt (R ^ 2 + (x ^ 2 + y ^ 2))))))
        (rad2deg (Real.arctan (x / R)))).2.1 = -y := by
  have hs_pos : 0 < Real.sqrt (R ^ 2 + (x ^ 2 + y ^ 2)) :=
    Real.sqrt_pos.2 (by positivity)
  have hs2 : Real.sqrt (R ^ 2 + (x ^ 2 + y ^ 2)) ^ 2 = R ^ 2 + (x ^ 2 + y ^ 2) :=
    Real.sq_sqrt (by positivity)
  have hq_pos : 0 < Real.sqrt (R ^ 2 + x ^ 2) := Real.sqrt_pos.2 (by positivity)
  have hq2 : Real.sqrt (R ^ 2 + x ^ 2) ^ 2 = R ^ 2 + x ^ 2 :=
    Real.sq_sqrt (by positivity)
  have hsq2 : Real.sqrt (1 + (x / R) ^ 2) = Real.sqrt (R ^ 2 + x ^ 2) / R := by
    have h1 : 1 + (x / R) ^ 2 = (Real.sqrt (R ^ 2 + x ^ 2) / R) ^ 2 := by
      rw [div_pow, div_pow, hq2]
      field_simp
    rw [h1, Real.sqrt_sq (div_nonneg hq_pos.le hR.le)]
  have hsinT : Real.sin (Real.arctan (x / R)) =
      x / Real.sqrt (R ^ 2 + x ^ 2) := by
    rw [Real.sin_arctan, hsq2, div_div_div_eq, mul_comm x R,
      mul_div_mul_left _ _ (ne_of_gt hR)]
  have hcosT : Real.cos (Real.arctan (x / R)) =
      R / Real.sqrt (R ^ 2 + x ^ 2) := by
    rw [Real.cos_arctan, hsq2, one_div_div]
  have hyabs : |y| ≤ Real.sqrt (R ^ 2 + (x ^ 2 + y ^ 2)) := by
    have h1 : y ^ 2 ≤ R ^ 2 + (x ^ 2 + y ^ 2) := by nlinarith [sq_nonneg x, sq_nonneg R]
    have h2 := Real.sqrt_le_sqrt h1
    rwa [Real.sqrt_sq_eq_abs] at h2
  have hybound : |y / Real.sqrt (R ^ 2 + (x ^ 2 + y ^ 2))| ≤ 1 := by
    rw [abs_div, abs_of_pos hs_pos]
    exact (div_le_one hs_pos).2 hyabs
  have hsinA : Real.sin (Real.arcsin
      (-(y / Real.sqrt (R ^ 2 + (x ^ 2 + y ^ 2))))) =
      -(y / Real.sqrt (R ^ 2 + (x ^ 2 + y ^ 2))) := by
    have hb := abs_le.1 hybound
    exact Real.sin_arcsin (by linarith [hb.2]) (by linarith [hb.1])
  have hcosA : Real.cos (Real.arcsin
      (-(y / Real.sqrt (R ^ 2 + (x ^ 2 + y ^ 2))))) =
      Real.sqrt (R ^ 2 + x ^ 2) / Real.sqrt (R ^ 2 + (x ^ 2 + y ^ 2)) := by
    rw [Real.cos_arcsin]
    have h1 : 1 - (-(y / Real.sqrt (R ^ 2 + (x ^ 2 + y ^ 2)))) ^ 2 =
        (Real.sqrt (R ^ 2 + x ^ 2) / Real.sqrt (R ^ 2 + (x ^ 2 + y ^ 2))) ^ 2 := by
      rw [neg_sq, div_pow, div_pow, hq2, hs2]
      field_simp
      ring
    rw [h1, Real.sqrt_sq (div_nonneg hq_pos.le hs_pos.le)]
  have hdeg0 : deg2rad (0 : ℝ) = 0 := by
    unfold deg2rad
    ring
  have hcc : gnom_cos_c ⟨R, 0, 0⟩
      (rad2deg (Real.arcsin (-(y / Real.sqrt (R ^ 2 + (x ^ 2 + y ^ 2))))))
      (rad2deg (Real.arctan (x / R))) =
      R / Real.sqrt (R ^ 2 + (x ^ 2 + y ^ 2)) := by
    unfold gnom_cos_c
    simp only [hdeg0, deg2rad_rad2deg, Real.sin_zero, Real.cos_zero, sub_zero,
      hsinA, hcosA, hcosT]
    rw [zero_mul, zero_add, one_mul]
    rw [div_mul_div_comm, mul_comm (Real.sqrt (R ^ 2 + x ^ 2)) R,
      mul_div_mul_right _ _ (ne_of_gt hq_pos)]
  have hccsafe : gnom_cos_c_safe ⟨R, 0, 0⟩
      (rad2deg (Real.arcsin (-(y / Real.sqrt (R ^ 2 + (x ^ 2 + y ^ 2))))))
      (rad2deg (Real.arctan (x / R))) =
      R / Real.sqrt (R ^ 2 + (x ^ 2 + y ^ 2)) := by
    unfold gnom_cos_c_safe
    rw [hcc, if_neg (ne_of_gt (div_pos hR hs_pos))]
  constructor
  · show (⟨R, 0, 0⟩ : GnomonicCfgR).R *
        Real.cos (deg2rad (rad2deg (Real.arcsin
          (-(y / Real.sqrt (R ^ 2 + (x ^ 2 + y ^ 2))))))) *
        Real.sin (deg2rad (rad2deg (Real.arctan (x / R))) -
          deg2rad (⟨R, 0, 0⟩ : GnomonicCfgR).lam0_deg) /
        gnom_cos_c_safe ⟨R, 0, 0⟩
          (rad2deg (Real.arcsin (-(y / Real.sqrt (R ^ 2 + (x ^ 2 + y ^ 2))))))
          (rad2deg (Real.arctan (x / R))) = x
    simp only [hdeg0, deg2rad_rad2deg, sub_zero, hccsafe, hcosA, hsinT]
    rw [div_eq_iff (ne_of_gt (div_pos hR hs_pos))]
    field_simp
    ring
  · show (⟨R, 0, 0⟩ : GnomonicCfgR).R *
        (Real.cos (deg2rad (⟨R, 0, 0⟩ : GnomonicCfgR).phi1_deg) *
          Real.sin (deg2rad (rad2deg (Real.arcsin
            (-(y / Real.sqrt (R ^ 2 + (x ^ 2 + y ^ 2))))))) -
          Real.sin (deg2rad (⟨R, 0, 0⟩ : GnomonicCfgR).phi1_deg) *
          Real.cos (deg2rad (rad2deg (Real.arcsin
            (-(y / Real.sqrt (R ^ 2 + (x ^ 2 + y ^ 2))))))) *
          Real.cos (deg2rad (rad2deg (Real.arctan (x / R))) -
            deg2rad (⟨R, 0, 0⟩ : GnomonicCfgR).lam0_deg)) /
        gnom_cos_c_safe ⟨R, 0, 0⟩
          (rad2deg (Real.arcsin (-(y / Real.sqrt (R ^ 2 + (x ^ 2 + y ^ 2))))))
          (rad2deg (Real.arctan (x / R))) = -y
    simp only [hdeg0, deg2rad_rad2deg, sub_zero, hccsafe, hsinA,
      Real.sin_zero, Real.cos_zero]
    rw [div_eq_iff (ne_of_gt (div_pos hR hs_pos))]
    field_simp
    exact Or.inl (mul_comm R y)

/-- The centred gnomonic round trip in closed form: the y-coordinate comes
back negated (the forward equations use a y-down sign convention, the
backward equations Snyder's y-up one). -/
theorem gnomonic_roundtrip_centered_aux (R x y : ℝ) (hR : 0 < R)
    (hxy : x ^ 2 + y ^ 2 ≠ 0) :
    gnomonic_roundtrip ⟨R, 0, 0⟩ x y = some (x, -y) := by
  unfold gnomonic_roundtrip
  rw [gnomonic_forward_centered R x y hR hxy]
  simp only [(gnomonic_backward_centered R x y hR).1,
    (gnomonic_backward_centered R x y hR).2]

/-- C2 (amended): the claimed identity round trip fails (see the
counterexample); what holds for the gnomonic strategy with a centred
configuration (`φ1 = λ0 = 0`, `R > 0`) is the exact relation
`backward(forward(x, y)) = (x, −y)` at every planar point other than the
centre: the x-coordinate returns exactly, the y-coordinate returns negated. -/
theorem gnomonic_roundtrip_negates_y (R x y : ℝ) (hR : 0 < R)
    (hxy : x ^ 2 + y ^ 2 ≠ 0) :
    gnomonic_roundtrip ⟨R, 0, 0⟩ x y = some (x, -y) :=
  gnomonic_roundtrip_centered_aux R x y hR hxy

/-- C2 witness: the round-trip relation at `R = 1`, `(x, y) = (1, 1)`. -/
theorem gnomonic_roundtrip_negates_y_case :
    (0 : ℝ) < 1 ∧ ((1 : ℝ) ^ 2 + (1 : ℝ) ^ 2 ≠ 0) ∧
    gnomonic_roundtrip ⟨1, 0, 0⟩ 1 1 = some (1, -1) :=
  ⟨by norm_num, by norm_num,
    gnomonic_roundtrip_negates_y 1 1 1 (by norm_num) (by norm_num)⟩

/-- C2 counterexample: for the gnomonic strategy with `R = 1`, `φ1 = 0`,
`λ0 = 0`, the round trip at `(x, y) = (0, 1)` returns `(0, −1)`: the
y-coordinate comes back with its sign flipped, an error of `2` — far outside
the claimed `1e-6` relative tolerance. -/
theorem gnomonic_roundtrip_not_identity :
    gnomonic_roundtrip ⟨1, 0, 0⟩ 0 1 = some (0, -1) ∧
    ¬ |(-1 : ℝ) - 1| ≤ 1e-6 * |(1 : ℝ)| := by
  refine ⟨?_, by norm_num⟩
  exact gnomonic_roundtrip_centered_aux 1 0 1 (by norm_num) (by norm_num)

end ProjectionRegistry
